import Mathlib

/-!
Shallow embedding of the Node-RED runtime admin API for flows
(`src/red/runtime-api/flows.js`): the optimistic-concurrency `setFlows`
operation, the `updateFlow` / `deleteFlow` not-found normalization, and
the `getNodeCredentials` credential-redaction algorithm.

JavaScript conventions modelled explicitly:
* promise settlement is `Outcome`: resolved, rejected, or never settled
  (a pending promise nobody ever settles);
* a store method may throw synchronously or return a promise
  (`StoreCall`);
* property access on a JS object yields `undefined` for a missing key
  (`jsGet`), and assignment replaces an existing key in place or appends
  a new one (`objSet`);
* `x || d` takes the default exactly when `x` is falsy (`orEmpty`,
  `effDeploy`, `errCodeOrUnexpected`);
* `x != null` is loose equality, false only for `null` / `undefined`.

The source refers to its logging sink both as `runtime.log` and as the
bare identifier `log`; the embedding treats both as the single
audit/warn sink and records every emitted entry in the returned log
list. Store reads and writes performed by `setFlows` are recorded as a
`StoreOp` trace so that "no write was performed" is a statement about
the trace.
-/

namespace NodeRed

/-- A JS error `code` property: the store uses both numeric codes (the
number 404) and string codes ("version_mismatch", "not_found"). -/
inductive ErrCode where
  | num (n : Nat)
  | str (s : String)
  deriving DecidableEq, Repr

/-- A JS `Error` object as this layer reads and mutates it: optional
`code` and `status` properties, plus `message` and `stack`. -/
structure JsError where
  code : Option ErrCode
  status : Option Nat
  message : String
  stack : String
  deriving DecidableEq, Repr

/-- Settlement of the promise returned by an API operation. `unsettled`
models a promise that is never resolved nor rejected. -/
inductive Outcome (α : Type) where
  | resolved (a : α)
  | rejected (e : JsError)
  | unsettled
  deriving DecidableEq, Repr

/-- Settlement of a store promise. -/
inductive Settle (α : Type) where
  | ok (a : α)
  | err (e : JsError)
  deriving DecidableEq, Repr

/-- A call into the flow store: either it throws synchronously, or it
returns a promise that settles with the given result. -/
inductive StoreCall (α : Type) where
  | throws (e : JsError)
  | promise (r : Settle α)
  deriving DecidableEq, Repr

/-- One entry emitted to the logging sink: an audit record (a list of
field/value pairs), a warn with a message id and the error message, or
a warn printing the error stack. -/
inductive LogEntry where
  | audit (fields : List (String × String))
  | warnMsg (msgId : String) (message : String)
  | warnStack (stack : String)
  deriving DecidableEq, Repr

/-- Node configuration objects are opaque to this layer and only passed
through; they are modelled as strings. -/
abbrev NodeConfig := String

/-- A store operation performed by `setFlows`, recorded in call order.
`getFlowsOp` is the fresh read of the current revision; the other two
are the write entrypoints. -/
inductive StoreOp where
  | getFlowsOp
  | loadFlowsOp
  | setFlowsOp (nodes : List NodeConfig) (deploymentType : String)
  deriving DecidableEq, Repr

/-- Whether a store operation is a write (replace or reload) as opposed
to a read. -/
def StoreOp.isWrite : StoreOp → Bool
  | .getFlowsOp => false
  | .loadFlowsOp => true
  | .setFlowsOp _ _ => true

/-- The flow store as `setFlows` consumes it: `currentRev` is the `rev`
field of `runtime.nodes.getFlows()` at call time, `loadFlows` the
settlement of `runtime.nodes.loadFlows()`, and `setFlows` the
settlement of `runtime.nodes.setFlows(nodes, deploymentType)`. -/
structure FlowStore where
  currentRev : String
  loadFlows : Settle String
  setFlows : List NodeConfig → String → Settle String

/-- The `opts.flows` payload: `rev` is `some` exactly when the payload
object has its own `rev` property, `flows` is the node array passed to
the store. -/
structure FlowsPayload where
  rev : Option String
  flows : List NodeConfig
  deriving DecidableEq, Repr

/-- The options object of `setFlows`: `flows` is `some` exactly when
`opts.flows` is defined. -/
structure SetFlowsOpts where
  deploymentType : Option String
  flows : Option FlowsPayload
  deriving DecidableEq, Repr

/-- The effective deployment type, `opts.deploymentType || "full"`: the
JS or-operator takes the default on any falsy value, in particular on a
missing property and on the empty string. -/
def effDeploy (opts : SetFlowsOpts) : String :=
  match opts.deploymentType with
  | some s => if s = "" then "full" else s
  | none => "full"

/-- The locally synthesized version-mismatch error: `new Error()` with
`code = "version_mismatch"` and `status = 409`. -/
def versionMismatchErr : JsError :=
  { code := some (.str "version_mismatch"), status := some 409
    message := "", stack := "" }

/-- The TypeError raised by `flows.hasOwnProperty` when `opts.flows` is
undefined; it is thrown inside the promise executor, so the returned
promise rejects with it. -/
def undefinedFlowsErr : JsError :=
  { code := none, status := none
    message := "Cannot read properties of undefined", stack := "" }

/-- Phase one of `setFlows`: everything up to the point where handlers
are attached to `apiPromise`. Either an early rejection (version
mismatch, or the TypeError on a missing payload) or the settled
`apiPromise`, together with the store operations performed. -/
inductive SetFlowsStep where
  | early (e : JsError) (ops : List StoreOp)
  | api (r : Settle String) (ops : List StoreOp)
  deriving Repr

/-- The branch structure of `setFlows` lines 72-87: the reload path
calls `loadFlows`; otherwise the payload's own `rev`, when present, is
compared against a fresh read of the store's current revision, and only
on a match (or with no `rev` at all) is the store's `setFlows` write
reached. -/
def setFlowsDispatch (store : FlowStore) (opts : SetFlowsOpts) : SetFlowsStep :=
  if effDeploy opts = "reload" then
    .api store.loadFlows [.loadFlowsOp]
  else
    match opts.flows with
    | none => .early undefinedFlowsErr []
    | some flows =>
      match flows.rev with
      | some rev =>
        if store.currentRev ≠ rev then
          .early versionMismatchErr [.getFlowsOp]
        else
          .api (store.setFlows flows.flows (effDeploy opts))
            [.getFlowsOp, .setFlowsOp flows.flows (effDeploy opts)]
      | none =>
        .api (store.setFlows flows.flows (effDeploy opts))
          [.setFlowsOp flows.flows (effDeploy opts)]

/-- The resolution value of a successful `setFlows`: `{rev: flowId}`. -/
structure SetReply where
  rev : String
  deriving DecidableEq, Repr

/-- One full run of the API `setFlows`: the settlement of the returned
promise, the store operations performed, and the log entries emitted. -/
structure SetFlowsRun where
  outcome : Outcome SetReply
  ops : List StoreOp
  logs : List LogEntry
  deriving Repr

/-- The API operation `setFlows` (lines 64-96): the audit record is
emitted first (it heads the log list in every branch, so the attempt is
logged even when the operation later fails); a successful `apiPromise`
resolves `{rev: flowId}`, and a rejected one is logged with a warn
tagged `reload` or `save` and then re-raised unchanged. -/
def setFlows (store : FlowStore) (opts : SetFlowsOpts) : SetFlowsRun :=
  match setFlowsDispatch store opts with
  | .early e ops =>
      ⟨.rejected e, ops,
        [.audit [("event", "flows.set"), ("type", effDeploy opts)]]⟩
  | .api (.ok flowId) ops =>
      ⟨.resolved ⟨flowId⟩, ops,
        [.audit [("event", "flows.set"), ("type", effDeploy opts)]]⟩
  | .api (.err e) ops =>
      ⟨.rejected e, ops,
        [.audit [("event", "flows.set"), ("type", effDeploy opts)],
         .warnMsg ("api.flows.error-" ++
           (if effDeploy opts = "reload" then "reload" else "save")) e.message,
         .warnStack e.stack]⟩

/-- The value chosen for an audit `error` field: `err.code ||
"unexpected_error"`, where a missing code, the number 0 and the empty
string are falsy. Numeric codes are rendered as their decimal digits in
the audit field. -/
def errCodeOrUnexpected (e : JsError) : String :=
  match e.code with
  | none => "unexpected_error"
  | some (.num n) => if n = 0 then "unexpected_error" else toString n
  | some (.str s) => if s = "" then "unexpected_error" else s

/-- The JS `Error.prototype.toString` rendering used by the audit
`message` field. -/
def jsErrToString (e : JsError) : String :=
  if e.message = "" then "Error" else "Error: " ++ e.message

/-- One full run of a promise-returning operation other than setFlows:
the settlement of the returned promise and the log entries emitted. -/
structure OpRun (α : Type) where
  outcome : Outcome α
  logs : List LogEntry
  deriving Repr

/-- The API operation `updateFlow` (lines 154-182), applied to one call
of the store's `updateFlow(id, flow)` and the requested id. A promise
rejection is handled by the attached catch: audit, set `status = 400`,
re-reject. A synchronous throw is handled by the try/catch: when
`err.code === 404` (the numeric store convention) the error is rewritten
to `status = 404`, `code = "not_found"`; otherwise `status = 400`. -/
def updateFlow (call : StoreCall Unit) (id : String) : OpRun String :=
  match call with
  | .promise (.ok _) =>
      ⟨.resolved id, [.audit [("event", "flow.update"), ("id", id)]]⟩
  | .promise (.err e) =>
      ⟨.rejected { e with status := some 400 },
        [.audit [("event", "flow.update"), ("error", errCodeOrUnexpected e),
          ("message", jsErrToString e)]]⟩
  | .throws e =>
      if e.code = some (.num 404) then
        ⟨.rejected { e with status := some 404, code := some (.str "not_found") },
          [.audit [("event", "flow.update"), ("id", id), ("error", "not_found")]]⟩
      else
        ⟨.rejected { e with status := some 400 },
          [.audit [("event", "flow.update"), ("error", errCodeOrUnexpected e),
            ("message", jsErrToString e)]]⟩

/-- The API operation `deleteFlow` (lines 191-213), applied to one call
of the store's `removeFlow(id)` and the requested id. Only a `then`
handler is attached to the store promise — there is no catch — so a
promise rejection leaves the outer promise unsettled forever. A
synchronous throw is normalized by the try/catch exactly as in
`updateFlow` (with the id also audited on the non-404 path). -/
def deleteFlow (call : StoreCall Unit) (id : String) : OpRun Unit :=
  match call with
  | .promise (.ok _) =>
      ⟨.resolved (), [.audit [("event", "flow.remove"), ("id", id)]]⟩
  | .promise (.err _) => ⟨.unsettled, []⟩
  | .throws e =>
      if e.code = some (.num 404) then
        ⟨.rejected { e with status := some 404, code := some (.str "not_found") },
          [.audit [("event", "flow.remove"), ("id", id), ("error", "not_found")]]⟩
      else
        ⟨.rejected { e with status := some 400 },
          [.audit [("event", "flow.remove"), ("id", id),
            ("error", errCodeOrUnexpected e), ("message", jsErrToString e)]]⟩

/-- A JS value as stored in a credentials object. -/
inductive JsValue where
  | str (s : String)
  | num (n : Int)
  | bool (b : Bool)
  | null
  | undefined
  deriving DecidableEq, Repr

/-- JS truthiness of the modelled values. -/
def JsValue.truthy : JsValue → Bool
  | .str s => s ≠ ""
  | .num n => n ≠ 0
  | .bool b => b
  | .null => false
  | .undefined => false

/-- The loose comparison `v != null`: false exactly for `null` and
`undefined`. -/
def JsValue.notNullish : JsValue → Bool
  | .null => false
  | .undefined => false
  | _ => true

/-- The strict comparison `v === ""`. -/
def JsValue.strictEqEmpty : JsValue → Bool
  | .str s => s == ""
  | _ => false

/-- The presence test on a stored secret, line 238:
`credentials[cred] != null && credentials[cred] !== ""`. -/
def hasValue (v : JsValue) : Bool :=
  v.notNullish && !v.strictEqEmpty

/-- The defaulting read on a non-password field, line 241:
`credentials[cred] || ""`. -/
def orEmpty (v : JsValue) : JsValue :=
  if v.truthy then v else .str ""

/-- Own-property lookup on a JS object modelled as an ordered
association list. -/
def lookupKey {α : Type} : List (String × α) → String → Option α
  | [], _ => none
  | p :: rest, k => if p.1 = k then some p.2 else lookupKey rest k

/-- Property read `obj[k]`: `undefined` when the property is missing. -/
def jsGet (o : List (String × JsValue)) (k : String) : JsValue :=
  (lookupKey o k).getD .undefined

/-- Property write `obj[k] = v`: replace an existing key in place, else
append the new property in insertion order. -/
def objSet {α : Type} : List (String × α) → String → α → List (String × α)
  | [], k, v => [(k, v)]
  | p :: rest, k, v => if p.1 = k then (k, v) :: rest else p :: objSet rest k v

/-- One field of a CredentialDefinition, carrying its declared
`type`. -/
structure CredDefEntry where
  type : String
  deriving DecidableEq, Repr

/-- A CredentialDefinition: field name to declared treatment, in key
insertion order (the order the for-in loop visits). -/
abbrev CredentialDefinition := List (String × CredDefEntry)

/-- Stored credentials: field name to raw value. -/
abbrev Credentials := List (String × JsValue)

/-- The loop body of `getNodeCredentials` (lines 234-243): one
definition field processed into the accumulated `sendCredentials`
object. A password-typed field writes `has_<name>` with the presence
boolean; any other field writes its own name with the defaulted stored
value. -/
def credStep (credentials : Credentials) (acc : List (String × JsValue))
    (p : String × CredDefEntry) : List (String × JsValue) :=
  if p.2.type = "password" then
    objSet acc ("has_" ++ p.1) (.bool (hasValue (jsGet credentials p.1)))
  else
    objSet acc p.1 (orEmpty (jsGet credentials p.1))

/-- The for-in loop of `getNodeCredentials` over the definition's own
keys in insertion order, starting from the empty object. -/
def sendCredentials (definition : CredentialDefinition)
    (credentials : Credentials) : List (String × JsValue) :=
  definition.foldl (credStep credentials) []

/-- The credential side of the store: `getCredentials` is `none` when no
credentials object is stored for the id (a falsy return), and
`getCredentialDefinition` yields the definition for a node type. -/
structure CredStore where
  getCredentials : String → Option Credentials
  getCredentialDefinition : String → CredentialDefinition

/-- The options of `getNodeCredentials`. -/
structure GetCredsOpts where
  type : String
  id : String

/-- The API operation `getNodeCredentials` (lines 224-246): audit first;
missing stored credentials resolve the empty object; otherwise the
definition drives the redaction loop. The promise always resolves. -/
def getNodeCredentials (store : CredStore) (opts : GetCredsOpts) :
    OpRun (List (String × JsValue)) :=
  let auditEntry := LogEntry.audit
    [("event", "credentials.get"), ("type", opts.type), ("id", opts.id)]
  match store.getCredentials opts.id with
  | none => ⟨.resolved [], [auditEntry]⟩
  | some credentials =>
      ⟨.resolved (sendCredentials (store.getCredentialDefinition opts.type) credentials),
        [auditEntry]⟩

/-- The output key a definition field writes: `has_<name>` for a
password field, the name itself otherwise. -/
def outKey (p : String × CredDefEntry) : String :=
  if p.2.type = "password" then "has_" ++ p.1 else p.1

/-- The output value a definition field writes. -/
def outVal (credentials : Credentials) (p : String × CredDefEntry) : JsValue :=
  if p.2.type = "password" then .bool (hasValue (jsGet credentials p.1))
  else orEmpty (jsGet credentials p.1)

theorem credStep_eq (credentials : Credentials) (acc : List (String × JsValue))
    (p : String × CredDefEntry) :
    credStep credentials acc p = objSet acc (outKey p) (outVal credentials p) := by
  unfold credStep outKey outVal
  by_cases h : p.2.type = "password" <;> simp [h]

theorem lookupKey_objSet_self {α : Type} (o : List (String × α)) (k : String) (v : α) :
    lookupKey (objSet o k v) k = some v := by
  induction o with
  | nil => simp [objSet, lookupKey]
  | cons p rest ih =>
    by_cases h : p.1 = k
    · simp [objSet, lookupKey, h]
    · simp [objSet, lookupKey, h, ih]

theorem lookupKey_objSet_ne {α : Type} (o : List (String × α)) (k k' : String) (v : α)
    (h : k' ≠ k) : lookupKey (objSet o k v) k' = lookupKey o k' := by
  induction o with
  | nil => simp [objSet, lookupKey, Ne.symm h]
  | cons p rest ih =>
    by_cases hp : p.1 = k
    · subst hp
      simp [objSet, lookupKey, Ne.symm h]
    · simp [objSet, lookupKey, hp, ih]

theorem jsGet_objSet_self (o : List (String × JsValue)) (k : String) (v : JsValue) :
    jsGet (objSet o k v) k = v := by
  simp [jsGet, lookupKey_objSet_self]

theorem jsGet_objSet_ne (o : List (String × JsValue)) (k k' : String) (v : JsValue)
    (h : k' ≠ k) : jsGet (objSet o k v) k' = jsGet o k' := by
  simp [jsGet, lookupKey_objSet_ne o k k' v h]

theorem objSet_of_not_mem {α : Type} (o : List (String × α)) (k : String) (v : α)
    (h : k ∉ o.map Prod.fst) : objSet o k v = o ++ [(k, v)] := by
  induction o with
  | nil => simp [objSet]
  | cons p rest ih =>
    simp only [List.map_cons, List.mem_cons] at h
    push_neg at h
    simp [objSet, Ne.symm h.1, ih h.2]

theorem lookupKey_of_not_mem {α : Type} (o : List (String × α)) (k : String)
    (h : k ∉ o.map Prod.fst) : lookupKey o k = none := by
  induction o with
  | nil => rfl
  | cons p rest ih =>
    simp only [List.map_cons, List.mem_cons] at h
    push_neg at h
    simp [lookupKey, Ne.symm h.1, ih h.2]

theorem lookupKey_of_nodup_mem {α : Type} (l : List (String × α)) (k : String) (v : α)
    (hnd : (l.map Prod.fst).Nodup) (hmem : (k, v) ∈ l) : lookupKey l k = some v := by
  induction l with
  | nil => cases hmem
  | cons p rest ih =>
    simp only [List.map_cons, List.nodup_cons] at hnd
    rcases List.mem_cons.mp hmem with h | h
    · simp [lookupKey, ← h]
    · have hk : p.1 ≠ k := by
        intro he
        exact hnd.1 (he ▸ (List.mem_map.mpr ⟨(k, v), h, rfl⟩))
      simp [lookupKey, hk, ih hnd.2 h]

theorem nodup_keys_val_eq {α : Type} (l : List (String × α)) (k : String) (v w : α)
    (hnd : (l.map Prod.fst).Nodup) (h1 : (k, v) ∈ l) (h2 : (k, w) ∈ l) : v = w := by
  have e1 := lookupKey_of_nodup_mem l k v hnd h1
  have e2 := lookupKey_of_nodup_mem l k w hnd h2
  exact Option.some.inj (e1.symm.trans e2)

theorem foldl_credStep_fresh (c : Credentials) (defn : CredentialDefinition) :
    ∀ acc : List (String × JsValue),
    (defn.map outKey).Nodup →
    (∀ k ∈ defn.map outKey, k ∉ acc.map Prod.fst) →
    defn.foldl (credStep c) acc = acc ++ defn.map (fun p => (outKey p, outVal c p)) := by
  induction defn with
  | nil => intro acc _ _; simp
  | cons p rest ih =>
    intro acc hnd hfresh
    simp only [List.map_cons, List.nodup_cons] at hnd
    have hp : outKey p ∉ acc.map Prod.fst :=
      hfresh (outKey p) (by simp)
    have hstep : credStep c acc p = acc ++ [(outKey p, outVal c p)] := by
      rw [credStep_eq, objSet_of_not_mem _ _ _ hp]
    have hfresh2 : ∀ k ∈ rest.map outKey,
        k ∉ (acc ++ [(outKey p, outVal c p)]).map Prod.fst := by
      intro k hk hmem
      rw [List.map_append] at hmem
      rcases List.mem_append.mp hmem with hmem | hmem
      · exact hfresh k (by simp [hk]) hmem
      · simp only [List.map_cons, List.map_nil, List.mem_singleton] at hmem
        exact hnd.1 (hmem ▸ hk)
    calc (p :: rest).foldl (credStep c) acc
        = rest.foldl (credStep c) (credStep c acc p) := by simp [List.foldl_cons]
      _ = (acc ++ [(outKey p, outVal c p)]) ++ rest.map (fun q => (outKey q, outVal c q)) := by
          rw [hstep, ih _ hnd.2 hfresh2]
      _ = acc ++ (p :: rest).map (fun q => (outKey q, outVal c q)) := by simp

theorem sendCredentials_eq_map (defn : CredentialDefinition) (c : Credentials)
    (hnd : (defn.map outKey).Nodup) :
    sendCredentials defn c = defn.map (fun p => (outKey p, outVal c p)) := by
  have := foldl_credStep_fresh c defn [] hnd (by simp)
  simpa [sendCredentials] using this

theorem foldl_credStep_congr (c1 c2 : Credentials) (defn : CredentialDefinition) :
    ∀ acc : List (String × JsValue),
    (∀ p ∈ defn, outVal c1 p = outVal c2 p) →
    defn.foldl (credStep c1) acc = defn.foldl (credStep c2) acc := by
  induction defn with
  | nil => intro acc _; rfl
  | cons p rest ih =>
    intro acc hval
    have hstep : credStep c1 acc p = credStep c2 acc p := by
      rw [credStep_eq, credStep_eq, hval p (by simp)]
    simp only [List.foldl_cons, hstep]
    exact ih _ (fun q hq => hval q (by simp [hq]))

theorem dispatch_early_inv (store : FlowStore) (opts : SetFlowsOpts)
    (payload : FlowsPayload) (e : JsError) (ops : List StoreOp)
    (hp : opts.flows = some payload)
    (hd : setFlowsDispatch store opts = .early e ops) :
    e = versionMismatchErr ∧ ops = [StoreOp.getFlowsOp] := by
  unfold setFlowsDispatch at hd
  by_cases hdt : effDeploy opts = "reload"
  · rw [if_pos hdt] at hd
    cases hd
  · rw [if_neg hdt] at hd
    simp only [hp] at hd
    cases hrev : payload.rev with
    | none => simp only [hrev] at hd; cases hd
    | some rev =>
      simp only [hrev] at hd
      by_cases hcv : store.currentRev ≠ rev
      · rw [if_pos hcv] at hd
        cases hd
        exact ⟨rfl, rfl⟩
      · rw [if_neg hcv] at hd
        cases hd

/-- Concrete store used by the witnesses: current revision "r1", reload
resolves "rA", replace resolves "r2". -/
def demoFlowStore : FlowStore :=
  { currentRev := "r1", loadFlows := .ok "rA", setFlows := fun _ _ => .ok "r2" }

/-- A store failure as the witnesses use it. -/
def boomErr : JsError :=
  { code := none, status := none, message := "boom", stack := "tr" }

/-- Concrete store whose write entrypoints both reject with `boomErr`. -/
def demoFailStore : FlowStore :=
  { currentRev := "r1", loadFlows := .err boomErr, setFlows := fun _ _ => .err boomErr }

/-- C1: a `setFlows` call whose effective deployment type is not
`reload` and whose payload declares a `rev` differing from the store's
currently active revision rejects with the locally synthesized
version-mismatch error (status 409, code "version_mismatch"); the only
store operation performed is the fresh revision read — no write. -/
theorem setFlows_rev_conflict_rejects (store : FlowStore) (opts : SetFlowsOpts)
    (payload : FlowsPayload) (r : String)
    (hdt : effDeploy opts ≠ "reload") (hp : opts.flows = some payload)
    (hr : payload.rev = some r) (hne : r ≠ store.currentRev) :
    (setFlows store opts).outcome = .rejected versionMismatchErr ∧
    versionMismatchErr.status = some 409 ∧
    versionMismatchErr.code = some (ErrCode.str "version_mismatch") ∧
    (setFlows store opts).ops = [StoreOp.getFlowsOp] ∧
    (setFlows store opts).ops.filter StoreOp.isWrite = [] := by
  have hd : setFlowsDispatch store opts = .early versionMismatchErr [.getFlowsOp] := by
    unfold setFlowsDispatch
    rw [if_neg hdt]
    simp only [hp, hr]
    rw [if_pos (Ne.symm hne)]
  refine ⟨?_, rfl, rfl, ?_, ?_⟩ <;> simp [setFlows, hd, StoreOp.isWrite]

theorem setFlows_rev_conflict_rejects_witness :
    effDeploy ⟨some "full", some ⟨some "r9", ["n1"]⟩⟩ ≠ "reload" ∧
    ("r9" : String) ≠ demoFlowStore.currentRev ∧
    (setFlows demoFlowStore ⟨some "full", some ⟨some "r9", ["n1"]⟩⟩).outcome
      = .rejected versionMismatchErr ∧
    (setFlows demoFlowStore ⟨some "full", some ⟨some "r9", ["n1"]⟩⟩).ops
      = [StoreOp.getFlowsOp] :=
  ⟨by decide, by decide,
    (setFlows_rev_conflict_rejects demoFlowStore _ ⟨some "r9", ["n1"]⟩ "r9"
      (by decide) rfl rfl (by decide)).1,
    (setFlows_rev_conflict_rejects demoFlowStore _ ⟨some "r9", ["n1"]⟩ "r9"
      (by decide) rfl rfl (by decide)).2.2.2.1⟩

/-- C2: a `setFlows` call with effective deployment type `reload` never
performs the revision comparison (no fresh revision read, even when the
ignored payload carries a `rev`): the store operation trace is exactly
the reload call, no replace write happens, and a successful reload
resolves with the new revision. -/
theorem setFlows_reload_bypass (store : FlowStore) (opts : SetFlowsOpts)
    (hdt : effDeploy opts = "reload") :
    (setFlows store opts).ops = [StoreOp.loadFlowsOp] ∧
    StoreOp.getFlowsOp ∉ (setFlows store opts).ops ∧
    (∀ nodes dt, StoreOp.setFlowsOp nodes dt ∉ (setFlows store opts).ops) ∧
    (∀ rid, store.loadFlows = .ok rid → (setFlows store opts).outcome = .resolved ⟨rid⟩) := by
  have hd : setFlowsDispatch store opts = .api store.loadFlows [.loadFlowsOp] := by
    unfold setFlowsDispatch
    rw [if_pos hdt]
  refine ⟨?_, ?_, ?_, ?_⟩
  · cases hload : store.loadFlows <;>
      (rw [hload] at hd; simp [setFlows, hd])
  · cases hload : store.loadFlows <;>
      (rw [hload] at hd; simp [setFlows, hd])
  · intro nodes dt
    cases hload : store.loadFlows <;>
      (rw [hload] at hd; simp [setFlows, hd])
  · intro rid hok
    rw [hok] at hd
    simp [setFlows, hd]

theorem setFlows_reload_bypass_witness :
    effDeploy ⟨some "reload", some ⟨some "r9", ["n1"]⟩⟩ = "reload" ∧
    (setFlows demoFlowStore ⟨some "reload", some ⟨some "r9", ["n1"]⟩⟩).ops
      = [StoreOp.loadFlowsOp] ∧
    (setFlows demoFlowStore ⟨some "reload", some ⟨some "r9", ["n1"]⟩⟩).outcome
      = .resolved ⟨"rA"⟩ :=
  ⟨by decide,
    (setFlows_reload_bypass demoFlowStore _ (by decide)).1,
    (setFlows_reload_bypass demoFlowStore _ (by decide)).2.2.2 "rA" rfl⟩

/-- C5: a non-reload `setFlows` call whose payload declares no `rev`
always reaches the store's replace write with the payload's node array
and the effective deployment type — for every store state, so
regardless of the current revision — and a successful write resolves
`{rev}` with the revision the store produced. -/
theorem setFlows_no_rev_unconditional (store : FlowStore) (opts : SetFlowsOpts)
    (payload : FlowsPayload)
    (hdt : effDeploy opts ≠ "reload") (hp : opts.flows = some payload)
    (hr : payload.rev = none) :
    (setFlows store opts).ops = [StoreOp.setFlowsOp payload.flows (effDeploy opts)] ∧
    (∀ rid, store.setFlows payload.flows (effDeploy opts) = .ok rid →
      (setFlows store opts).outcome = .resolved ⟨rid⟩) := by
  have hd : setFlowsDispatch store opts
      = .api (store.setFlows payload.flows (effDeploy opts))
          [.setFlowsOp payload.flows (effDeploy opts)] := by
    unfold setFlowsDispatch
    rw [if_neg hdt]
    simp only [hp, hr]
  constructor
  · cases hcall : store.setFlows payload.flows (effDeploy opts) <;>
      (rw [hcall] at hd; simp [setFlows, hd])
  · intro rid hok
    rw [hok] at hd
    simp [setFlows, hd]

theorem setFlows_no_rev_unconditional_witness :
    effDeploy ⟨none, some ⟨none, ["n1"]⟩⟩ ≠ "reload" ∧
    (setFlows demoFlowStore ⟨none, some ⟨none, ["n1"]⟩⟩).ops
      = [StoreOp.setFlowsOp ["n1"] (effDeploy ⟨none, some ⟨none, ["n1"]⟩⟩)] ∧
    (setFlows demoFlowStore ⟨none, some ⟨none, ["n1"]⟩⟩).outcome = .resolved ⟨"r2"⟩ :=
  ⟨by decide,
    (setFlows_no_rev_unconditional demoFlowStore _ ⟨none, ["n1"]⟩ (by decide) rfl rfl).1,
    (setFlows_no_rev_unconditional demoFlowStore _ ⟨none, ["n1"]⟩
      (by decide) rfl rfl).2 "r2" rfl⟩

/-- C10: a non-reload `setFlows` call with no payload at all rejects
(the rev-presence test throws a TypeError inside the promise executor)
and performs no store operation whatsoever — in particular no write and
no reload. -/
theorem setFlows_missing_payload (store : FlowStore) (opts : SetFlowsOpts)
    (hdt : effDeploy opts ≠ "reload") (hp : opts.flows = none) :
    (setFlows store opts).outcome = .rejected undefinedFlowsErr ∧
    (setFlows store opts).ops = [] := by
  have hd : setFlowsDispatch store opts = .early undefinedFlowsErr [] := by
    unfold setFlowsDispatch
    rw [if_neg hdt]
    simp only [hp]
  simp [setFlows, hd]

theorem setFlows_missing_payload_witness :
    effDeploy ⟨some "full", none⟩ ≠ "reload" ∧
    (setFlows demoFlowStore ⟨some "full", none⟩).outcome = .rejected undefinedFlowsErr ∧
    (setFlows demoFlowStore ⟨some "full", none⟩).ops = [] :=
  ⟨by decide,
    (setFlows_missing_payload demoFlowStore _ (by decide) rfl).1,
    (setFlows_missing_payload demoFlowStore _ (by decide) rfl).2⟩

/-- C7: with a payload supplied, whenever the store promise that
`setFlows` awaits rejects with an error, that error is re-raised to the
caller unchanged and a warn tagged `reload` or `save` (by path) plus the
stack warn appear in the log; and conversely every rejection either came
from the awaited store promise or is the locally synthesized
version-mismatch error, emitted without any store write. -/
theorem setFlows_store_rejection (store : FlowStore) (opts : SetFlowsOpts)
    (payload : FlowsPayload) (e : JsError) (ops : List StoreOp)
    (hp : opts.flows = some payload) :
    (setFlowsDispatch store opts = .api (.err e) ops →
      (setFlows store opts).outcome = .rejected e ∧
      LogEntry.warnMsg
        ("api.flows.error-" ++ (if effDeploy opts = "reload" then "reload" else "save"))
        e.message ∈ (setFlows store opts).logs ∧
      LogEntry.warnStack e.stack ∈ (setFlows store opts).logs) ∧
    ((setFlows store opts).outcome = .rejected e →
      setFlowsDispatch store opts = .api (.err e) (setFlows store opts).ops ∨
      (e = versionMismatchErr ∧ (setFlows store opts).ops.filter StoreOp.isWrite = [])) := by
  constructor
  · intro h
    simp [setFlows, h]
  · intro hout
    cases hd : setFlowsDispatch store opts with
    | early e2 ops2 =>
      right
      obtain ⟨he, ho⟩ := dispatch_early_inv store opts payload e2 ops2 hp hd
      subst he
      subst ho
      have hev : versionMismatchErr = e := by
        simp [setFlows, hd] at hout
        exact hout
      refine ⟨hev.symm, ?_⟩
      simp [setFlows, hd, StoreOp.isWrite]
    | api r ops2 =>
      cases r with
      | ok rid =>
        exfalso
        simp [setFlows, hd] at hout
      | err e2 =>
        left
        have he : e2 = e := by
          simp [setFlows, hd] at hout
          exact hout
        subst he
        simp [setFlows, hd]

theorem setFlows_store_rejection_witness :
    (setFlowsDispatch demoFailStore ⟨some "full", some ⟨none, ["n1"]⟩⟩
        = SetFlowsStep.api (.err boomErr) [StoreOp.setFlowsOp ["n1"] "full"] →
      (setFlows demoFailStore ⟨some "full", some ⟨none, ["n1"]⟩⟩).outcome
          = .rejected boomErr ∧
      LogEntry.warnMsg
        ("api.flows.error-" ++
          (if effDeploy ⟨some "full", some ⟨none, ["n1"]⟩⟩ = "reload" then "reload" else "save"))
        boomErr.message
        ∈ (setFlows demoFailStore ⟨some "full", some ⟨none, ["n1"]⟩⟩).logs ∧
      LogEntry.warnStack boomErr.stack
        ∈ (setFlows demoFailStore ⟨some "full", some ⟨none, ["n1"]⟩⟩).logs) ∧
    ((setFlows demoFailStore ⟨some "full", some ⟨none, ["n1"]⟩⟩).outcome
        = .rejected boomErr →
      setFlowsDispatch demoFailStore ⟨some "full", some ⟨none, ["n1"]⟩⟩
        = SetFlowsStep.api (.err boomErr)
            (setFlows demoFailStore ⟨some "full", some ⟨none, ["n1"]⟩⟩).ops ∨
      (boomErr = versionMismatchErr ∧
        (setFlows demoFailStore ⟨some "full", some ⟨none, ["n1"]⟩⟩).ops.filter
          StoreOp.isWrite = [])) :=
  setFlows_store_rejection demoFailStore ⟨some "full", some ⟨none, ["n1"]⟩⟩
    ⟨none, ["n1"]⟩ boomErr [StoreOp.setFlowsOp ["n1"] "full"] rfl

/-- C8: `deleteFlow` attaches only a then-handler to the store promise
(the try/catch covers synchronous throws alone), so when the store's
remove-operation rejects asynchronously, the promise returned by
`deleteFlow` never settles: the caller never observes the failure, and
no log entry is emitted for it. -/
theorem deleteFlow_async_rejection_unhandled (e : JsError) (id : String) :
    (deleteFlow (.promise (.err e)) id).outcome = .unsettled ∧
    (deleteFlow (.promise (.err e)) id).logs = [] :=
  ⟨rfl, rfl⟩

/-- C4 counterexample: with the store signalling the unknown id via an
asynchronous promise rejection carrying the numeric code 404,
`deleteFlow` never settles at all, and `updateFlow` rejects with status
400 and the raw numeric code — not status 404 with string code
"not_found" as the claim states for every signalling convention. -/
theorem notFound_async_counterexample :
    (deleteFlow (.promise (.err ⟨some (.num 404), none, "", ""⟩)) "f1").outcome
      = .unsettled ∧
    (updateFlow (.promise (.err ⟨some (.num 404), none, "", ""⟩)) "f1").outcome
      = .rejected ⟨some (.num 404), some 400, "", ""⟩ ∧
    (some (400 : Nat) ≠ some (404 : Nat)) ∧
    (ErrCode.num 404 ≠ ErrCode.str "not_found") := by
  refine ⟨rfl, rfl, by decide, by decide⟩

/-- C4 amended: when the store signals the unknown id via a synchronous
throw whose `code` is the number 404, both `updateFlow` and `deleteFlow`
fail outward with status 404 and string code "not_found"; when the store
signals it via promise rejection instead, `updateFlow` rewrites the
status to 400 leaving the numeric code in place, and `deleteFlow` never
settles. -/
theorem updateFlow_deleteFlow_not_found_sync (e : JsError) (id : String)
    (h : e.code = some (.num 404)) :
    (updateFlow (.throws e) id).outcome
      = .rejected { e with status := some 404, code := some (.str "not_found") } ∧
    (deleteFlow (.throws e) id).outcome
      = .rejected { e with status := some 404, code := some (.str "not_found") } ∧
    (updateFlow (.promise (.err e)) id).outcome = .rejected { e with status := some 400 } ∧
    (deleteFlow (.promise (.err e)) id).outcome = .unsettled := by
  refine ⟨?_, ?_, rfl, rfl⟩ <;> simp [updateFlow, deleteFlow, h]

theorem updateFlow_deleteFlow_not_found_sync_witness :
    (⟨some (.num 404), none, "no such flow", ""⟩ : JsError).code = some (.num 404) ∧
    (updateFlow (.throws ⟨some (.num 404), none, "no such flow", ""⟩) "f1").outcome
      = .rejected ⟨some (.str "not_found"), some 404, "no such flow", ""⟩ :=
  ⟨rfl,
    (updateFlow_deleteFlow_not_found_sync ⟨some (.num 404), none, "no such flow", ""⟩
      "f1" rfl).1⟩

theorem map_fst_outKey (defn : CredentialDefinition) (creds : Credentials) :
    (defn.map (fun p => (outKey p, outVal creds p))).map Prod.fst = defn.map outKey := by
  rw [List.map_map]
  rfl

/-- Concrete credential store: the definition of the redaction-example
claim, with the secret "secret" and the plain field "alice". -/
def demoCredStore : CredStore :=
  { getCredentials := fun _ => some [("password", .str "secret"), ("user", .str "alice")],
    getCredentialDefinition := fun _ =>
      [("password", ⟨"password"⟩), ("user", ⟨"other"⟩)] }

/-- C3: for the definition `{password: password, user: other}` and
stored `{password: "secret", user: "alice"}`, the output is exactly
`{has_password: true, user: "alice"}`; and in general — for any
definition with distinct field names, as JS objects have — changing the
stored value of a password-declared field to any other value with the
same presence status leaves the output unchanged, so the output depends
on the secret only through its presence. -/
theorem getNodeCredentials_redaction (defn : CredentialDefinition) (p : String)
    (entry : CredDefEntry) (creds : Credentials) (v1 v2 : JsValue)
    (hnd : (defn.map Prod.fst).Nodup) (hmem : (p, entry) ∈ defn)
    (hty : entry.type = "password") (hv : hasValue v1 = hasValue v2) :
    sendCredentials defn (objSet creds p v1) = sendCredentials defn (objSet creds p v2) ∧
    (getNodeCredentials demoCredStore ⟨"demo", "n1"⟩).outcome
      = .resolved [("has_password", .bool true), ("user", .str "alice")] := by
  constructor
  · unfold sendCredentials
    apply foldl_credStep_congr
    intro q hq
    by_cases hqp : q.1 = p
    · have hq2 : (p, q.2) ∈ defn := by
        rw [← hqp]
        exact Prod.mk.eta.symm ▸ hq
      have hqe : q.2 = entry := nodup_keys_val_eq defn p q.2 entry hnd hq2 hmem
      unfold outVal
      rw [hqp, hqe, hty]
      simp [jsGet_objSet_self, hv]
    · unfold outVal
      rw [jsGet_objSet_ne creds p q.1 v1 hqp, jsGet_objSet_ne creds p q.1 v2 hqp]
  · rfl

theorem getNodeCredentials_redaction_witness :
    (([("password", (⟨"password"⟩ : CredDefEntry)), ("user", ⟨"other"⟩)].map Prod.fst).Nodup) ∧
    hasValue (.str "secret") = hasValue (.str "hunter2") ∧
    sendCredentials [("password", ⟨"password"⟩), ("user", ⟨"other"⟩)]
        (objSet [("user", JsValue.str "alice")] "password" (.str "secret"))
      = sendCredentials [("password", ⟨"password"⟩), ("user", ⟨"other"⟩)]
        (objSet [("user", JsValue.str "alice")] "password" (.str "hunter2")) ∧
    (getNodeCredentials demoCredStore ⟨"demo", "n1"⟩).outcome
      = .resolved [("has_password", .bool true), ("user", .str "alice")] :=
  ⟨by decide, rfl,
    (getNodeCredentials_redaction
      [("password", ⟨"password"⟩), ("user", ⟨"other"⟩)] "password" ⟨"password"⟩
      [("user", .str "alice")] (.str "secret") (.str "hunter2")
      (by decide) (by decide) rfl rfl).1,
    (getNodeCredentials_redaction
      [("password", ⟨"password"⟩), ("user", ⟨"other"⟩)] "password" ⟨"password"⟩
      [("user", .str "alice")] (.str "secret") (.str "hunter2")
      (by decide) (by decide) rfl rfl).2⟩

/-- Concrete credential store in which a non-password field is itself
named `has_x` while a password field `x` also produces the output key
`has_x`. -/
def collideCredStore : CredStore :=
  { getCredentials := fun _ => some [("x", .str "s"), ("has_x", .str "boo")],
    getCredentialDefinition := fun _ => [("x", ⟨"password"⟩), ("has_x", ⟨"other"⟩)] }

/-- C6 counterexample: the field `x` is declared with type password and
its stored value "s" is present and non-empty, so the claim demands a
boolean output field `has_x = true`; but the later non-password
definition field named `has_x` overwrites it, and the output maps
`has_x` to the string "boo" — no boolean field for `x` survives. -/
theorem password_flag_collision_counterexample :
    (getNodeCredentials collideCredStore ⟨"demo", "n1"⟩).outcome
      = .resolved [("has_x", JsValue.str "boo")] ∧
    hasValue (JsValue.str "s") = true ∧
    JsValue.str "boo" ≠ JsValue.bool true :=
  ⟨rfl, rfl, by decide⟩

/-- C6 amended: provided the definition's derived output names
(`has_<name>` for password fields, the name itself otherwise) are
pairwise distinct — they always are unless a field is literally named
`has_<other field>` — the output maps `has_<name>` of every
password-declared field to a boolean that is true exactly when the
stored value is present and non-empty, where null, undefined and the
empty string uniformly count as not set; in particular a stored empty
string yields `has_password: false`. -/
theorem getNodeCredentials_password_flag (defn : CredentialDefinition)
    (creds : Credentials) (cred : String) (entry : CredDefEntry)
    (hnd : (defn.map outKey).Nodup) (hmem : (cred, entry) ∈ defn)
    (hty : entry.type = "password") :
    lookupKey (sendCredentials defn creds) ("has_" ++ cred)
      = some (.bool (hasValue (jsGet creds cred))) ∧
    (∀ v : JsValue, hasValue v = true ↔ (v ≠ .null ∧ v ≠ .undefined ∧ v ≠ .str "")) ∧
    sendCredentials [("password", ⟨"password"⟩)] [("password", JsValue.str "")]
      = [("has_password", JsValue.bool false)] := by
  refine ⟨?_, ?_, rfl⟩
  · rw [sendCredentials_eq_map defn creds hnd]
    have hmem2 : (("has_" ++ cred), JsValue.bool (hasValue (jsGet creds cred)))
        ∈ defn.map (fun p => (outKey p, outVal creds p)) := by
      refine List.mem_map.mpr ⟨(cred, entry), hmem, ?_⟩
      simp [outKey, outVal, hty]
    apply lookupKey_of_nodup_mem _ _ _ ?_ hmem2
    rw [map_fst_outKey]
    exact hnd
  · intro v
    cases v <;> simp [hasValue, JsValue.notNullish, JsValue.strictEqEmpty]

theorem getNodeCredentials_password_flag_witness :
    (([("pw", (⟨"password"⟩ : CredDefEntry))].map outKey).Nodup) ∧
    lookupKey (sendCredentials [("pw", ⟨"password"⟩)] [("pw", JsValue.str "secret")])
        "has_pw" = some (.bool (hasValue (jsGet [("pw", JsValue.str "secret")] "pw"))) :=
  ⟨by decide,
    (getNodeCredentials_password_flag [("pw", ⟨"password"⟩)]
      [("pw", JsValue.str "secret")] "pw" ⟨"password"⟩ (by decide) (by decide) rfl).1⟩

/-- Concrete credential store whose one declared non-password field
holds the stored value `false`. -/
def falsyCredStore : CredStore :=
  { getCredentials := fun _ => some [("user", .bool false)],
    getCredentialDefinition := fun _ => [("user", ⟨"other"⟩)] }

/-- C9 counterexample: the non-password field `user` is present in the
stored credentials with value `false`, yet the output carries the empty
string instead of the stored value — the `|| ""` default fires on every
falsy stored value, not only on absent ones. -/
theorem passthrough_falsy_counterexample :
    (getNodeCredentials falsyCredStore ⟨"demo", "n1"⟩).outcome
      = .resolved [("user", JsValue.str "")] ∧
    lookupKey [("user", JsValue.bool false)] "user" = some (.bool false) ∧
    JsValue.str "" ≠ JsValue.bool false :=
  ⟨rfl, rfl, by decide⟩

/-- C9 amended: provided the definition's derived output names are
pairwise distinct, every non-password field appears under its original
name carrying the stored value when that value is truthy and the empty
string otherwise (absent, null, undefined, false, 0 and "" all yield the
default); and the output's key list is exactly the definition's derived
name list — independent of the stored credentials — so every stored
field absent from the definition is dropped. -/
theorem getNodeCredentials_passthrough (defn : CredentialDefinition)
    (creds : Credentials) (cred : String) (entry : CredDefEntry)
    (hnd : (defn.map outKey).Nodup) (hmem : (cred, entry) ∈ defn)
    (hty : ¬entry.type = "password") :
    lookupKey (sendCredentials defn creds) cred = some (orEmpty (jsGet creds cred)) ∧
    (sendCredentials defn creds).map Prod.fst = defn.map outKey ∧
    (∀ k, k ∉ defn.map outKey → lookupKey (sendCredentials defn creds) k = none) ∧
    (∀ v : JsValue, v.truthy = true → orEmpty v = v) ∧
    (∀ v : JsValue, v.truthy = false → orEmpty v = .str "") := by
  have hmap : (sendCredentials defn creds).map Prod.fst = defn.map outKey := by
    rw [sendCredentials_eq_map defn creds hnd, map_fst_outKey]
  refine ⟨?_, hmap, ?_, ?_, ?_⟩
  · rw [sendCredentials_eq_map defn creds hnd]
    have hmem2 : (cred, orEmpty (jsGet creds cred))
        ∈ defn.map (fun p => (outKey p, outVal creds p)) := by
      refine List.mem_map.mpr ⟨(cred, entry), hmem, ?_⟩
      simp [outKey, outVal, hty]
    apply lookupKey_of_nodup_mem _ _ _ ?_ hmem2
    rw [map_fst_outKey]
    exact hnd
  · intro k hk
    apply lookupKey_of_not_mem
    rw [hmap]
    exact hk
  · intro v hv
    simp [orEmpty, hv]
  · intro v hv
    simp [orEmpty, hv]

theorem getNodeCredentials_passthrough_witness :
    (([("user", (⟨"other"⟩ : CredDefEntry))].map outKey).Nodup) ∧
    lookupKey (sendCredentials [("user", ⟨"other"⟩)] [("user", JsValue.str "alice")])
        "user" = some (orEmpty (jsGet [("user", JsValue.str "alice")] "user")) :=
  ⟨by decide,
    (getNodeCredentials_passthrough [("user", ⟨"other"⟩)] [("user", JsValue.str "alice")]
      "user" ⟨"other"⟩ (by decide) (by decide) (by decide)).1⟩

end NodeRed
